import Mathlib

/-!
Verification of the mozaik analysis modules against their specification.

This file contains a shallow embedding, in Lean 4, of the two source files

  * src/mozaik/meta_workflow/analysis.py
  * src/mozaik/analysis/analysis.py

together with theorems settling the spec claims about them.  Python floats
are modelled by exact rationals (the claims under study concern control flow
and exact algebraic identities, not rounding), Python lists by Lean lists,
fallible code by Option/Except, the append-only data store by explicit lists
of records, and numpy arrays by lists of lists.  Helper functions of the
repository that live outside the two source files above (the stimulus
`colapse` machinery, store query helpers, `psth`) are modelled from the
specification where a claim depends on them; each such definition carries a
doc comment saying so.
-/

namespace Mozaik

/-- Python's `int()` applied to a rational: truncation toward zero. -/
def pyInt (q : ℚ) : ℤ :=
  if 0 ≤ q then ⌊q⌋ else -⌊-q⌋

/-- Python 2's `round` applied to a rational: half rounds away from zero. -/
def pyRound (q : ℚ) : ℤ :=
  if 0 ≤ q then ⌊q + 1/2⌋ else -⌊-q + 1/2⌋

/-! ### Sweep loading of src/mozaik/meta_workflow/analysis.py -/

/-- One `SingleValue` analysis data structure, as queried in
`export_as_matricies` (src/mozaik/meta_workflow/analysis.py): it carries a
`value_name` and a scalar `value`. -/
structure SV where
  value_name : String
  value : ℚ
deriving DecidableEq

/-- The queryable content of one combination's datastore, restricted to what
`export_as_matricies` reads from it: the list of its `SingleValue` records. -/
abbrev Store := List SV

/-- A parameter combination: Python dict modelled as an ordered association
list from parameter name to value. -/
abbrev Comb := List (String × ℚ)

/-- `tuple(set(comb.keys()))` of line 32 of meta_workflow/analysis.py: the set
of parameter names of a combination (Python sets compared by content). -/
def combKeys (c : Comb) : Finset String :=
  (c.map Prod.fst).toFinset

/-- Line 32 of meta_workflow/analysis.py:
`len(set([tuple(set(comb.keys())) for comb in combinations])) == 1`. -/
def keySetsUniform (combos : List Comb) : Bool :=
  (combos.map combKeys).dedup.length == 1

/-- The property C8 speaks about: all combinations share an identical set of
parameter keys. -/
def allKeySetsEqual (combos : List Comb) : Prop :=
  ∀ c ∈ combos, ∀ c' ∈ combos, combKeys c = combKeys c'

instance (combos : List Comb) : Decidable (allKeySetsEqual combos) := by
  unfold allKeySetsEqual; infer_instance

/-- `combination[k]`: look up parameter `k` in a combination (line 43). -/
def lookupParam (c : Comb) (k : String) : ℚ :=
  ((c.find? (fun kv => kv.1 == k)).map Prod.snd).getD 0

/-- The loading loop of lines 36-47 of meta_workflow/analysis.py.  The
outcome of `PickledDataStore(load=True, ...)` for a combination is supplied
by `loader` (`none` models the `IOError` caught on line 44): a successful
load appends `([combination[k] for k in parameters], data_store)`, a failed
one increments `number_of_unloadable_datastores` and continues. -/
def loadLoop (loader : Comb → Option Store) (parameters : List String) :
    List Comb → List (List ℚ × Store) × ℕ
  | [] => ([], 0)
  | c :: rest =>
    let r := loadLoop loader parameters rest
    match loader c with
    | some ds => ((parameters.map (fun k => lookupParam c k), ds) :: r.1, r.2)
    | none => (r.1, r.2 + 1)

/-- `load_fixed_parameter_set_parameter_search` of
src/mozaik/meta_workflow/analysis.py (lines 10-48), with the pickled
`combinations` list and the per-combination load outcome as inputs.  The
assert on line 32 (all combinations share one set of parameter names) is the
only exception escaping before the loading loop and is modelled as
`Except.error ()`. -/
def load_fixed_parameter_set_parameter_search
    (combos : List Comb) (loader : Comb → Option Store) :
    Except Unit (List String × List (List ℚ × Store) × ℕ) :=
  if keySetsUniform combos then
    let parameters := (combos.headD []).map Prod.fst
    let r := loadLoop loader parameters combos
    .ok (parameters, r.1, r.2)
  else
    .error ()

/-! ### export_as_matricies of src/mozaik/meta_workflow/analysis.py -/

/-- The errors `export_as_matricies` can abort with: the uniqueness assert of
line 95, the completeness assert of line 107, a numpy/list `IndexError`, and
the case of a non-2D grid (the function's docstring declares only the 2D
case handled; numpy would build an N-d array there, which this 2D embedding
does not model). -/
inductive ExportErr where
  | indexErr : ExportErr
  | assertUnique : ExportErr
  | assertCompleteness : ExportErr
  | unhandledDims : ExportErr
deriving DecidableEq

/-- A 2D result grid; `none` is the NaN missing-value sentinel that
`matrix.fill(numpy.NAN)` (line 111) initializes every cell to. -/
abbrev Grid := List (List (Option ℚ))

/-- `sorted(set(xs))` of line 101: distinct values in ascending order. -/
def sortedSet (xs : List ℚ) : List ℚ :=
  (xs.dedup).insertionSort (fun a b => a ≤ b)

/-- The per-axis unique sorted values of line 101:
`param_values = [sorted(set(params[:,i])) for i in xrange(0,num_params)]`. -/
def exportParamValues (datastores : List (List ℚ × Store)) : List (List ℚ) :=
  let params := datastores.map Prod.fst
  let num_params := (params.headD []).length
  (List.range num_params).map (fun i => sortedSet (params.map (fun p => p.getD i 0)))

/-- Line 102: `dimensions = numpy.array([len(x) for x in param_values])`. -/
def exportDimensions (datastores : List (List ℚ × Store)) : List ℕ :=
  (exportParamValues datastores).map List.length

/-- Line 88: the distinct `value_name`s of the `SingleValue` records of the
first datastore (note: taken from `datastores[0][1]` directly, without the
`query` filter). -/
def exportValueNames (datastores : List (List ℚ × Store)) : List String :=
  (((datastores.headD ([], [])).2).map SV.value_name).dedup

/-- Lines 92-95: for every datastore and every value name, the query-filtered
store must contain exactly one `SingleValue` record with that name. -/
def exportUniqueOk (query : Store → Store) (value_names : List String)
    (datastores : List (List ℚ × Store)) : Bool :=
  datastores.all (fun ds => value_names.all (fun v =>
    ((query ds.2).filter (fun a => a.value_name == v)).length == 1))

/-- Line 113: `index = [param_values[i].index(pv[i]) for i in
xrange(0,len(param_values))]` — the multi-index of a combination's parameter
vector `pv`, obtained by per-axis lookup in the sorted unique-value lists. -/
def exportIndexOf (param_values : List (List ℚ)) (pv : List ℚ) : List ℕ :=
  (List.range param_values.length).map
    (fun i => (param_values.getD i []).indexOf (pv.getD i 0))

/-- The numpy fancy-indexed write of line 115, `matrix[index] = value`, where
`index` is a Python *list* of integers: numpy interprets a plain integer
list as advanced indexing along axis 0, so the statement overwrites the
entire row `i` (all `d1` cells) for every `i` in `index`, and raises
`IndexError` when some `i` is not a valid axis-0 position.  `none` models
the `IndexError`. -/
def fancyWrite (d1 : ℕ) (m : Grid) (index : List ℕ) (v : ℚ) : Option Grid :=
  if index.all (fun i => i < m.length) then
    some (index.foldl (fun acc i => acc.set i (List.replicate d1 (some v))) m)
  else
    none

/-- Lines 109-115 for a single `value_name`: start from an all-NaN `d0 × d1`
grid, and for each loaded combination compute
`index = [param_values[i].index(pv[i]) for i in ...]` and perform the
`matrix[index] = ...` write, reading the unique `SingleValue` of that name
from the query-filtered store (`[0]` on an empty result is an IndexError,
modelled as `none`). -/
def buildMatrix (query : Store → Store) (param_values : List (List ℚ))
    (d0 d1 : ℕ) (v : String) (datastores : List (List ℚ × Store)) : Option Grid :=
  datastores.foldlM (fun acc ds => do
    let index := exportIndexOf param_values ds.1
    let value ← (((query ds.2).filter (fun a => a.value_name == v)).head?).map SV.value
    fancyWrite d1 acc index value)
    (List.replicate d0 (List.replicate d1 (none : Option ℚ)))

/-- `export_as_matricies` of src/mozaik/meta_workflow/analysis.py
(lines 72-118), taking the result of the loading stage (`parameters`,
`datastores`, unloadable count `n`) and the `query` object's filter as
inputs.  Output: one `(value_name, grid)` pair per value name (the pickled
files of lines 117-118). -/
def export_as_matricies (query : Store → Store)
    (datastores : List (List ℚ × Store)) (n : ℕ) :
    Except ExportErr (List (String × Grid)) :=
  match datastores.head? with
  | none => .error .indexErr
  | some _ =>
    let value_names := exportValueNames datastores
    if exportUniqueOk query value_names datastores then
      let param_values := exportParamValues datastores
      let dimensions := exportDimensions datastores
      if datastores.length + n == dimensions.prod then
        match dimensions with
        | [d0, d1] =>
          match value_names.mapM
              (fun v => (buildMatrix query param_values d0 d1 v datastores).map
                (fun m => (v, m))) with
          | some out => .ok out
          | none => .error .indexErr
        | _ => .error .unhandledDims
      else
        .error .assertCompleteness
    else
      .error .assertUnique

/-- Following the spec's words (for comparison with `fancyWrite` from the
source): writing one combination's value "into exactly the one grid cell
whose multi-index is formed by looking up each of the combination's
parameter values", i.e. a tuple-indexed single-cell write `matrix[i0, i1]`
for a 2D grid. -/
def specCellWrite (m : Grid) (index : List ℕ) (v : ℚ) : Option Grid :=
  match index with
  | [i0, i1] =>
    if i0 < m.length ∧ i1 < (m.getD i0 []).length then
      some (m.set i0 ((m.getD i0 []).set i1 (some v)))
    else none
  | _ => none

/-- The matrix-building loop with the spec's single-cell write in place of
the source's fancy-indexed write; otherwise identical to `buildMatrix`. -/
def specBuildMatrix (query : Store → Store) (param_values : List (List ℚ))
    (d0 d1 : ℕ) (v : String) (datastores : List (List ℚ × Store)) : Option Grid :=
  datastores.foldlM (fun acc ds => do
    let index := exportIndexOf param_values ds.1
    let value ← (((query ds.2).filter (fun a => a.value_name == v)).head?).map SV.value
    specCellWrite acc index value)
    (List.replicate d0 (List.replicate d1 (none : Option ℚ)))

/-- A produced grid contains no NaN (missing-sentinel) cell. -/
def gridNoNaN : Option Grid → Bool
  | none => false
  | some g => g.all (fun row => row.all Option.isSome)

/-! ### GSTA.do_gsta of src/mozaik/analysis/analysis.py (lines 228-248) -/

/-- A neo `AnalogSignal` as read by `GSTA.do_gsta`: the sampled values, the
start time and the sampling period.  In neo, `t_stop` is the derived
quantity `t_start + len * sampling_period`. -/
structure ASig where
  samples : List ℚ
  tStart : ℚ
  samplingPeriod : ℚ
deriving DecidableEq

/-- neo's derived `t_stop` of an analog signal. -/
def ASig.tStop (s : ASig) : ℚ :=
  s.tStart + s.samples.length * s.samplingPeriod

/-- The slice `ans[idx-gstal : idx+gstal+1]` of line 238 (the code only
reaches it with `idx - gstal > 0`, where the Python slice is an ordinary
drop/take). -/
def windowSlice (gstal idx : ℤ) (samples : List ℚ) : List ℚ :=
  (samples.drop (idx - gstal).toNat).take (2 * gstal + 1).toNat

/-- The guard of lines 235-237 under which a spike contributes to the STA:
the spike time lies strictly inside the signal window, and the window of
half-width `gstal` around its sample bin fits inside the signal. -/
def gstaQualifies (dt : ℚ) (gstal : ℤ) (s : ASig) (time : ℚ) : Prop :=
  (s.tStart < time ∧ time < s.tStop) ∧
    (pyInt ((time - s.tStart) / dt) - gstal > 0 ∧
     pyInt ((time - s.tStart) / dt) + gstal + 1 ≤ (s.samples.length : ℤ))

instance (dt : ℚ) (gstal : ℤ) (s : ASig) (time : ℚ) :
    Decidable (gstaQualifies dt gstal s time) := by
  unfold gstaQualifies; infer_instance

/-- Every sample of the signal equals the constant `c` (the premise of the
spike-triggered-average claim). -/
def constSignal (s : ASig) (c : ℚ) : Prop :=
  ∀ x ∈ s.samples, x = c

instance (s : ASig) (c : ℚ) : Decidable (constSignal s c) := by
  unfold constSignal; infer_instance

/-- The body of the spike loop (lines 234-239) for one spike: if the spike
time lies strictly inside the signal window (line 235) and its centered
window fits (line 237), add the extracted slice to the running sum and bump
the count (lines 238-239); otherwise leave the accumulator unchanged. -/
def gstaStep (dt : ℚ) (gstal : ℤ) (s : ASig) (time : ℚ)
    (acc : List ℚ × ℕ) : List ℚ × ℕ :=
  if s.tStart < time ∧ time < s.tStop then
    if pyInt ((time - s.tStart) / dt) - gstal > 0 ∧
        pyInt ((time - s.tStart) / dt) + gstal + 1 ≤ (s.samples.length : ℤ) then
      (List.zipWith (· + ·) acc.1
        (windowSlice gstal (pyInt ((time - s.tStart) / dt)) s.samples),
       acc.2 + 1)
    else acc
  else acc

/-- The inner spike loop of lines 234-239, accumulating the elementwise sum
`gsta` and the qualifying-spike `count` over one `(ans, spike)` pair. -/
def gstaSpikes (dt : ℚ) (gstal : ℤ) (s : ASig) :
    List ℚ → List ℚ × ℕ → List ℚ × ℕ
  | [], acc => acc
  | time :: rest, acc => gstaSpikes dt gstal s rest (gstaStep dt gstal s time acc)

/-- The outer loop of line 233 over `zip(analog_signal, sp)`. -/
def gstaPairs (dt : ℚ) (gstal : ℤ) :
    List (ASig × List ℚ) → List ℚ × ℕ → List ℚ × ℕ
  | [], acc => acc
  | p :: rest, acc => gstaPairs dt gstal rest (gstaSpikes dt gstal p.1 p.2 acc)

/-- `GSTA.do_gsta` of src/mozaik/analysis/analysis.py (lines 228-248):
`dt` and the result units come from `analog_signal[0]` (an empty signal
list would be a Python IndexError, modelled as `none`); `gstal` is
`int(length/dt)`; the accumulated sum over all `zip(analog_signal, sp)`
pairs is divided by the qualifying-spike count, with a zero count replaced
by one (lines 240-242); the result is an `AnalogSignal` starting at
`-gstal*dt` with sampling period `dt`. -/
def do_gsta (length_p : ℚ) (analog_signal : List ASig) (sp : List (List ℚ)) :
    Option ASig :=
  match analog_signal with
  | [] => none
  | s0 :: rest =>
    let dt := s0.samplingPeriod
    let gstal : ℤ := pyInt (length_p / dt)
    let init : List ℚ × ℕ := (List.replicate (2 * gstal + 1).toNat 0, 0)
    let r := gstaPairs dt gstal ((s0 :: rest).zip sp) init
    let count : ℕ := if r.2 = 0 then 1 else r.2
    some { samples := r.1.map (fun x => x / (count : ℚ)),
           tStart := -(gstal : ℚ) * dt,
           samplingPeriod := dt }

/-! ### ModulationRatio of src/mozaik/analysis/analysis.py (lines 312-420) -/

/-- One analysis record added by `ModulationRatio.perform_analysis`
(lines 389-397), keeping the fields the claims refer to: `value_name`,
`sheet_name` and the stimulus id the record is labeled with. -/
structure MRRecord where
  valueName : String
  sheetName : String
  stimulusId : String
deriving DecidableEq

/-- The data `ModulationRatio.perform_analysis` obtains from the datastore
for one sheet.  `assertsOk` is the conjunction of the three store-query
asserts of lines 329-331 (`equal_ads_except`, `ads_with_equal_stimulus_type`,
`equal_stimulus_type`, store helpers outside the analysed sources);
`orPrefCount` is the length of the line 345-347 query result (the
`PerNeuronValue` records with value_name 'orientation preference' for the
sheet); `groups` is the list of stimulus descriptors (one per group) that
`colapse_to_dictionary(psths, stids, "orientation")` of line 379 yields,
and for each of which lines 380-397 add exactly one record. -/
structure MRSheetData where
  name : String
  assertsOk : Bool
  orPrefCount : ℕ
  groups : List String
deriving DecidableEq

/-- How a run of `ModulationRatio.perform_analysis` terminates: falling off
the sheet loop normally, the early `return None` of line 352, or an
`AssertionError` from lines 329-331 propagating to the caller. -/
inductive MROutcome where
  | normal : MROutcome
  | abortedReturn : MROutcome
  | assertionErr : String → MROutcome
deriving DecidableEq

/-- The `logger.error` message of lines 349-351. -/
def mrErrMsg (count : ℕ) : String :=
  "ERROR: Expected only one PerNeuronValue per sheet with value_name " ++
    "orientation preference in datastore, got: " ++ toString count

/-- The records lines 380-397 add for one sheet that passed all checks: one
'Modulation ratio' `PerNeuronValue` per collapsed stimulus group. -/
def mrRecordsFor (s : MRSheetData) : List MRRecord :=
  s.groups.map (fun g => ⟨"Modulation ratio", s.name, g⟩)

/-- The sheet loop of `ModulationRatio.perform_analysis` (lines 324-397):
processes sheets in order; a failed assert raises (terminating with the
records and log written so far); an orientation-preference count other than
one logs an error and executes `return None`, ending the whole routine; an
unexceptional sheet adds its records and the loop continues.  Returns the
records added to the store, the error log, and the termination outcome. -/
def modulationRatioRun : List MRSheetData → List MRRecord × List String × MROutcome
  | [] => ([], [], .normal)
  | s :: rest =>
    if ¬ s.assertsOk then
      ([], [], .assertionErr s.name)
    else if s.orPrefCount ≠ 1 then
      ([], [mrErrMsg s.orPrefCount], .abortedReturn)
    else
      let r := modulationRatioRun rest
      (mrRecordsFor s ++ r.1, r.2.1, r.2.2)

/-- The `k`-th coefficient of `numpy.fft.fft` (line 415) of a real signal of
length `N`: `F_k = sum_n x_n * exp(-2*pi*i*k*n/N)`.  Defined for every
integer `k`; the expression is `N`-periodic in `k`, which matches numpy's
Python-style negative indexing `fft[-m] = fft[N-m]` as well. -/
noncomputable def dftCoeff (x : List ℚ) (k : ℤ) : ℂ :=
  ∑ n ∈ Finset.range x.length,
    ((x.getD n 0 : ℚ) : ℂ) *
      Complex.exp (-2 * Real.pi * Complex.I * k * n / x.length)

/-- `ModulationRatio.calculate_MR` of src/mozaik/analysis/analysis.py
(lines 403-420), applied to a signal given by its samples, `t_start`,
`t_stop` and the presented temporal `frequency`: `period = 1/frequency`,
`cycles = duration/period`, `first_har = round(cycles)`, and the result is
`2*abs(fft[first_har])/abs(fft[0])`, or `0` when `abs(fft[0])` is zero. -/
noncomputable def calculate_MR (samples : List ℚ) (tStart tStop : ℚ)
    (frequency : ℚ) : ℝ :=
  let duration := tStop - tStart
  let period := 1 / frequency
  let cycles := duration / period
  let first_har := pyRound cycles
  if Complex.abs (dftCoeff samples 0) ≠ 0 then
    2 * Complex.abs (dftCoeff samples first_har) / Complex.abs (dftCoeff samples 0)
  else 0

/-! ### The stimulus collapsing machinery and TrialAveragedFiringRate -/

/-- A stimulus descriptor (spec section 3): a stimulus type name and an
ordered mapping from parameter name to value. -/
structure StimDesc where
  stimulusType : String
  params : List (String × ℚ)
deriving DecidableEq

/-- Modelled from the spec: the representative descriptor of a collapse
group is "any one member's descriptor restricted to the non-excluded
parameters" (spec section 4.1, step 4); the `colapse` implementation in
mozaik/stimuli/stimulus.py is not among the analysed source files. -/
def StimDesc.restrict (excl : List String) (d : StimDesc) : StimDesc :=
  { d with params := d.params.filter (fun kv => !(excl.contains kv.1)) }

/-- Insert one value into the association list of collapse groups: an
existing group (keyed by restricted descriptor) has the value appended,
preserving input order inside the group; a new key opens a group at the
end, so groups are emitted in order of first occurrence. -/
def colapseInsert {V : Type} (key : StimDesc) (v : V) :
    List (StimDesc × List V) → List (StimDesc × List V)
  | [] => [(key, [v])]
  | (k, vs) :: rest =>
    if k == key then (k, vs ++ [v]) :: rest
    else (k, vs) :: colapseInsert key v rest

/-- Modelled from the spec: `colapse` of mozaik/stimuli/stimulus.py (not
among the analysed source files), per spec section 4.1: partition the
(value, descriptor) pairs into groups of descriptors that are equal except
on the excluded parameters (literal value equality, stimulus type
included), groups ordered by first appearance, values keeping their input
order, each group labeled by its restricted representative descriptor.
Returns the pair (value groups, group descriptors) the way the Python
callers destructure it. -/
def colapse {V : Type} (values : List V) (descs : List StimDesc)
    (excl : List String) : List (List V) × List StimDesc :=
  let groups := (values.zip descs).foldl
    (fun acc p => colapseInsert (p.2.restrict excl) p.1 acc) []
  (groups.map Prod.snd, groups.map Prod.fst)

/-- Python's `sum` over a nonempty list of numpy arrays: the elementwise
sum (line 95 of src/mozaik/analysis/analysis.py applies it per group). -/
def vecSum : List (List ℚ) → List ℚ
  | [] => []
  | x :: xs => xs.foldl (List.zipWith (· + ·)) x

/-- A `PerNeuronValue` record as added by
`TrialAveragedFiringRate.perform_analysis` (lines 101-109): the per-neuron
value array, the value name, the sheet and the stimulus descriptor label. -/
structure FRRecord where
  value : List ℚ
  valueName : String
  sheetName : String
  stimulusId : StimDesc
deriving DecidableEq

/-- The per-sheet body of `TrialAveragedFiringRate.perform_analysis`
(src/mozaik/analysis/analysis.py lines 86-109): collapse the per-trial
mean-rate arrays against all stimulus parameters other than `trial`
(line 93), take `sum(a)/len(a)` of each group (line 95), and add one
'Firing rate' `PerNeuronValue` per group, labeled with the group's
descriptor (lines 101-109). -/
def trialAveragedFiringRate (sheet : String) (mean_rates : List (List ℚ))
    (st : List StimDesc) : List FRRecord :=
  let r := colapse mean_rates st ["trial"]
  let means := r.1.map (fun a => (vecSum a).map (fun x => x / (a.length : ℚ)))
  (means.zip r.2).map (fun p => ⟨p.1, "Firing rate", sheet, p.2⟩)

/-! ## Theorems -/

/-! ### Helper lemmas -/

theorem loadLoop_characterization (loader : Comb → Option Store)
    (ps : List String) :
    ∀ combos : List Comb,
      loadLoop loader ps combos =
        (combos.filterMap (fun c => (loader c).map
          (fun s => (ps.map (fun k => lookupParam c k), s))),
         (combos.filter (fun c => (loader c).isNone)).length)
  | [] => rfl
  | c :: rest => by
    have ih := loadLoop_characterization loader ps rest
    cases h : loader c with
    | none => simp [loadLoop, ih, h, List.filterMap_cons, List.filter_cons]
    | some s => simp [loadLoop, ih, h, List.filterMap_cons, List.filter_cons]

theorem loadLoop_length (loader : Comb → Option Store) (ps : List String) :
    ∀ combos : List Comb,
      (loadLoop loader ps combos).1.length + (loadLoop loader ps combos).2 =
        combos.length
  | [] => rfl
  | c :: rest => by
    have ih := loadLoop_length loader ps rest
    cases h : loader c with
    | none => simp only [loadLoop, h, List.length_cons]; omega
    | some s => simp only [loadLoop, h, List.length_cons]; omega

theorem dedup_eq_single {α : Type} [DecidableEq α] (a : α) :
    ∀ l : List α, (∀ x ∈ l, x = a) → l ≠ [] → l.dedup = [a]
  | [], _, hne => absurd rfl hne
  | b :: l, hall, _ => by
    have hb : b = a := hall b (List.mem_cons_self b l)
    subst hb
    cases l with
    | nil => simp
    | cons c l' =>
      have hc : c = b := hall c (by simp)
      have hmem : b ∈ c :: l' := by rw [hc]; exact List.mem_cons_self b l'
      rw [List.dedup_cons_of_mem hmem]
      exact dedup_eq_single b (c :: l') (fun x hx => hall x (List.mem_cons_of_mem b hx))
        (by simp)

theorem dedup_length_eq_one {α : Type} [DecidableEq α] (l : List α) :
    l.dedup.length = 1 ↔ l ≠ [] ∧ ∀ x ∈ l, ∀ y ∈ l, x = y := by
  constructor
  · intro h
    obtain ⟨a, ha⟩ := List.length_eq_one.mp h
    constructor
    · intro hnil
      subst hnil
      simp at ha
    · intro x hx y hy
      have hx' : x ∈ l.dedup := List.mem_dedup.mpr hx
      have hy' : y ∈ l.dedup := List.mem_dedup.mpr hy
      rw [ha] at hx' hy'
      simp at hx' hy'
      rw [hx', hy']
  · rintro ⟨hne, hall⟩
    obtain ⟨b, l', rfl⟩ := List.exists_cons_of_ne_nil hne
    have : (b :: l').dedup = [b] :=
      dedup_eq_single b (b :: l')
        (fun x hx => hall x hx b (List.mem_cons_self b l')) (by simp)
    rw [this]
    rfl

/-! ### Claim C7 -/

/-- C7: when an individual combination's persisted store fails to load,
`load_fixed_parameter_set_parameter_search` records a soft failure: the
unloadable count is incremented, the combination is skipped (absent from the
returned list), loading continues, and the number of loaded stores plus the
unloadable count equals the number of combinations attempted. -/
theorem C7_soft_failure (combos : List Comb) (loader : Comb → Option Store)
    (h : keySetsUniform combos = true) :
    ∃ ps ds n,
      load_fixed_parameter_set_parameter_search combos loader = .ok (ps, ds, n) ∧
      ds = combos.filterMap (fun c => (loader c).map
        (fun s => (ps.map (fun k => lookupParam c k), s))) ∧
      n = (combos.filter (fun c => (loader c).isNone)).length ∧
      ds.length + n = combos.length := by
  refine ⟨(combos.headD []).map Prod.fst,
    (loadLoop loader ((combos.headD []).map Prod.fst) combos).1,
    (loadLoop loader ((combos.headD []).map Prod.fst) combos).2, ?_, ?_, ?_, ?_⟩
  · simp [load_fixed_parameter_set_parameter_search, h]
  · rw [loadLoop_characterization]
  · rw [loadLoop_characterization]
  · exact loadLoop_length loader _ combos

/-- Witness for C7 at a concrete two-combination input whose second
combination fails to load. -/
theorem C7_soft_failure_witness :
    keySetsUniform [[("a", 1)], [("a", 2)]] = true ∧
    ∃ ps ds n,
      load_fixed_parameter_set_parameter_search
        [[("a", 1)], [("a", 2)]]
        (fun c => if c = [("a", (1 : ℚ))] then some ([] : Store) else none) =
          .ok (ps, ds, n) ∧
      ds.length + n = 2 := by
  refine ⟨by decide, ?_⟩
  obtain ⟨ps, ds, n, h1, _, _, h4⟩ :=
    C7_soft_failure [[("a", 1)], [("a", 2)]]
      (fun c => if c = [("a", (1 : ℚ))] then some ([] : Store) else none) (by decide)
  exact ⟨ps, ds, n, h1, h4⟩

/-! ### Claim C8 -/

/-- C8 counterexample: on the empty combination list every pair of
combinations (vacuously) shares an identical key set, yet the function
raises the fatal key-set error — `len(set([])) == 1` is false — so "when all
key sets are identical it proceeds without this error" fails. -/
theorem C8_counterexample :
    allKeySetsEqual [] ∧
    load_fixed_parameter_set_parameter_search [] (fun _ => none) = .error () :=
  ⟨by decide, rfl⟩

/-- C8 amended: the fatal key-set error is raised, before any store is
consulted (the result does not depend on the loader at all in that case),
if and only if the combination list is empty or the combinations do not all
share an identical set of parameter keys. -/
theorem C8_amended_keyset_check (combos : List Comb) (loader : Comb → Option Store) :
    (load_fixed_parameter_set_parameter_search combos loader = .error () ↔
      combos = [] ∨ ¬ allKeySetsEqual combos) ∧
    (load_fixed_parameter_set_parameter_search combos loader = .error () →
      ∀ loader', load_fixed_parameter_set_parameter_search combos loader' = .error ()) := by
  have herr : ∀ ld : Comb → Option Store,
      load_fixed_parameter_set_parameter_search combos ld = .error () ↔
        keySetsUniform combos = false := by
    intro ld
    unfold load_fixed_parameter_set_parameter_search
    cases h : keySetsUniform combos with
    | false => simp [h]
    | true => simp [h]
  have hkey : keySetsUniform combos = true ↔ combos ≠ [] ∧ allKeySetsEqual combos := by
    unfold keySetsUniform
    rw [beq_iff_eq, dedup_length_eq_one]
    unfold allKeySetsEqual
    constructor
    · rintro ⟨hne, hall⟩
      refine ⟨fun hnil => hne (by simp [hnil]), ?_⟩
      intro c hc c' hc'
      exact hall _ (List.mem_map_of_mem combKeys hc) _ (List.mem_map_of_mem combKeys hc')
    · rintro ⟨hne, hall⟩
      refine ⟨by simpa using hne, ?_⟩
      intro x hx y hy
      obtain ⟨c, hc, rfl⟩ := List.mem_map.mp hx
      obtain ⟨c', hc', rfl⟩ := List.mem_map.mp hy
      exact hall c hc c' hc'
  constructor
  · rw [herr loader]
    constructor
    · intro hfalse
      by_contra hcon
      push_neg at hcon
      rw [hkey.mpr hcon] at hfalse
      cases hfalse
    · intro hor
      cases hb : keySetsUniform combos with
      | false => rfl
      | true =>
        obtain ⟨hne, hall⟩ := hkey.mp hb
        rcases hor with rfl | hk
        · exact absurd rfl hne
        · exact absurd hall hk
  · intro herr1 loader'
    rw [herr loader']
    rw [herr loader] at herr1
    exact herr1

/-! ### Claim C2 -/

/-- C2: `export_as_matricies` performs the completeness check before
producing any output: given that the earlier per-value-name uniqueness
assertion passes (and the datastore list is nonempty, so execution reaches
the check), the run aborts with the completeness error exactly when the
number of loaded combinations plus the unloadable count differs from the
product of the per-axis dimension sizes, and any produced output implies the
counts matched. -/
theorem C2_completeness_check (query : Store → Store)
    (datastores : List (List ℚ × Store)) (n : ℕ)
    (hne : datastores ≠ [])
    (huniq : exportUniqueOk query (exportValueNames datastores) datastores = true) :
    (export_as_matricies query datastores n = .error .assertCompleteness ↔
      datastores.length + n ≠ (exportDimensions datastores).prod) ∧
    (∀ out, export_as_matricies query datastores n = .ok out →
      datastores.length + n = (exportDimensions datastores).prod) := by
  obtain ⟨d, rest, rfl⟩ := List.exists_cons_of_ne_nil hne
  unfold export_as_matricies
  simp only [List.head?_cons, huniq, if_true]
  by_cases hc : (d :: rest).length + n = (exportDimensions (d :: rest)).prod
  · have hbeq : ((d :: rest).length + n == (exportDimensions (d :: rest)).prod) = true :=
      beq_iff_eq.mpr hc
    rw [hbeq]
    simp only [if_true]
    refine ⟨⟨?_, fun h => absurd hc h⟩, fun out _ => hc⟩
    split
    · split
      · intro h; cases h
      · intro h; cases h
    · intro h; cases h
  · have hbeq : ((d :: rest).length + n == (exportDimensions (d :: rest)).prod) = false :=
      beq_eq_false_iff_ne.mpr hc
    rw [hbeq]
    refine ⟨⟨fun _ => hc, fun _ => by simp⟩, fun out h => by simp at h⟩

/-- Witness for C2 at a concrete input: one loaded combination plus an
unloadable count of 1 against a declared 1-cell grid trips the completeness
error. -/
theorem C2_completeness_check_witness :
    export_as_matricies id [([1], [⟨"v", 5⟩])] 1 = .error .assertCompleteness :=
  (C2_completeness_check id [([1], [⟨"v", 5⟩])] 1 (by decide) (by decide)).1.mpr
    (by decide)

/-! ### Claim C1 -/

/-- The spec's end-to-end sweep scenario: a full 3 × 4 grid of parameter
combinations (values {1,2,3} × {10,20,30,40}), each loaded datastore holding
exactly one `SingleValue` named "v", no unloadable combination. -/
def c1Datastores : List (List ℚ × Store) :=
  [(1,10),(1,20),(1,30),(1,40),(2,10),(2,20),(2,30),(2,40),
   (3,10),(3,20),(3,30),(3,40)].map
    (fun p : ℚ × ℚ => ([p.1, p.2], [SV.mk "v" (p.1 + p.2)]))

/-- C1 fails on the code: in the spec's full 3 × 4 sweep every combination's
multi-index is computed correctly and each of the 12 grid cells is covered
exactly once (first conjunct), and the spec's single-cell write indeed
produces a grid with no NaN cell (third conjunct) — but the source's
`matrix[index] = value` statement, `index` being a Python list, is a numpy
fancy-indexed write along axis 0, so `export_as_matricies` overwrites whole
rows and aborts with an IndexError as soon as a second-axis index (here 3,
for parameter value 40) is not a valid row number of the 3-row matrix
(second conjunct), instead of returning the 3 × 4 array with no NaN cells. -/
theorem C1_single_cell_write_bug :
    (c1Datastores.map (fun ds => exportIndexOf (exportParamValues c1Datastores) ds.1)) =
      [[0, 0], [0, 1], [0, 2], [0, 3], [1, 0], [1, 1], [1, 2], [1, 3],
       [2, 0], [2, 1], [2, 2], [2, 3]] ∧
    export_as_matricies id c1Datastores 0 = Except.error ExportErr.indexErr ∧
    gridNoNaN (specBuildMatrix id (exportParamValues c1Datastores) 3 4 "v"
      c1Datastores) = true :=
  ⟨by decide, rfl, by decide⟩

/-! ### GSTA lemmas -/

theorem windowSlice_const (samples : List ℚ) (c : ℚ) (gstal idx : ℤ)
    (hconst : ∀ x ∈ samples, x = c) (hg : 0 ≤ gstal)
    (h1 : idx - gstal > 0) (h2 : idx + gstal + 1 ≤ (samples.length : ℤ)) :
    windowSlice gstal idx samples = List.replicate (2 * gstal + 1).toNat c := by
  rw [List.eq_replicate_iff]
  constructor
  · unfold windowSlice
    simp only [List.length_take, List.length_drop]
    omega
  · intro b hb
    exact hconst b (List.mem_of_mem_drop (List.mem_of_mem_take hb))

theorem gstaStep_qualifies (dt : ℚ) (gstal : ℤ) (s : ASig) (time : ℚ)
    (acc : List ℚ × ℕ) (hq : gstaQualifies dt gstal s time) :
    gstaStep dt gstal s time acc =
      (List.zipWith (· + ·) acc.1
        (windowSlice gstal (pyInt ((time - s.tStart) / dt)) s.samples),
       acc.2 + 1) := by
  rw [gstaQualifies] at hq
  unfold gstaStep
  rw [if_pos hq.1, if_pos hq.2]

theorem gstaStep_not (dt : ℚ) (gstal : ℤ) (s : ASig) (time : ℚ)
    (acc : List ℚ × ℕ) (h : ¬ gstaQualifies dt gstal s time) :
    gstaStep dt gstal s time acc = acc := by
  rw [gstaQualifies] at h
  unfold gstaStep
  by_cases houter : s.tStart < time ∧ time < s.tStop
  · rw [if_pos houter, if_neg (fun hinner => h ⟨houter, hinner⟩)]
  · rw [if_neg houter]

theorem gstaStep_count_le (dt : ℚ) (gstal : ℤ) (s : ASig) (time : ℚ)
    (acc : List ℚ × ℕ) : acc.2 ≤ (gstaStep dt gstal s time acc).2 := by
  unfold gstaStep
  split
  · split
    · exact Nat.le_succ _
    · exact le_refl _
  · exact le_refl _

theorem gstaStep_inv (dt : ℚ) (gstal : ℤ) (s : ASig) (c : ℚ) (time : ℚ)
    (acc : List ℚ × ℕ)
    (hconst : ∀ x ∈ s.samples, x = c) (hg : 0 ≤ gstal)
    (hacc : acc.1 = List.replicate (2 * gstal + 1).toNat ((acc.2 : ℚ) * c)) :
    (gstaStep dt gstal s time acc).1 =
      List.replicate (2 * gstal + 1).toNat
        (((gstaStep dt gstal s time acc).2 : ℚ) * c) := by
  by_cases hq : gstaQualifies dt gstal s time
  · rw [gstaStep_qualifies dt gstal s time acc hq]
    rw [gstaQualifies] at hq
    have hslice := windowSlice_const s.samples c gstal
      (pyInt ((time - s.tStart) / dt)) hconst hg hq.2.1 hq.2.2
    simp only [hacc, hslice, List.zipWith_replicate']
    congr 1
    push_cast
    ring
  · rw [gstaStep_not dt gstal s time acc hq]
    exact hacc

theorem gstaSpikes_inv (dt : ℚ) (gstal : ℤ) (s : ASig) (c : ℚ)
    (hconst : ∀ x ∈ s.samples, x = c) (hg : 0 ≤ gstal) :
    ∀ (spikes : List ℚ) (acc : List ℚ × ℕ),
      acc.1 = List.replicate (2 * gstal + 1).toNat ((acc.2 : ℚ) * c) →
      (gstaSpikes dt gstal s spikes acc).1 =
        List.replicate (2 * gstal + 1).toNat
          (((gstaSpikes dt gstal s spikes acc).2 : ℚ) * c)
  | [], _, hacc => hacc
  | time :: rest, acc, hacc =>
    gstaSpikes_inv dt gstal s c hconst hg rest (gstaStep dt gstal s time acc)
      (gstaStep_inv dt gstal s c time acc hconst hg hacc)

theorem gstaSpikes_count_le (dt : ℚ) (gstal : ℤ) (s : ASig) :
    ∀ (spikes : List ℚ) (acc : List ℚ × ℕ),
      acc.2 ≤ (gstaSpikes dt gstal s spikes acc).2
  | [], _ => le_refl _
  | time :: rest, acc =>
    le_trans (gstaStep_count_le dt gstal s time acc)
      (gstaSpikes_count_le dt gstal s rest (gstaStep dt gstal s time acc))

theorem gstaSpikes_count_lt (dt : ℚ) (gstal : ℤ) (s : ASig) :
    ∀ (spikes : List ℚ) (acc : List ℚ × ℕ),
      (∃ t ∈ spikes, gstaQualifies dt gstal s t) →
      acc.2 < (gstaSpikes dt gstal s spikes acc).2
  | [], _, h => by simp at h
  | time :: rest, acc, h => by
    obtain ⟨u, hu, hq⟩ := h
    rcases List.mem_cons.mp hu with rfl | hur
    · have hstep := gstaStep_qualifies dt gstal s u acc hq
      calc acc.2 < acc.2 + 1 := Nat.lt_succ_self _
        _ = (gstaStep dt gstal s u acc).2 := by rw [hstep]
        _ ≤ (gstaSpikes dt gstal s rest (gstaStep dt gstal s u acc)).2 :=
          gstaSpikes_count_le dt gstal s rest _
    · exact lt_of_le_of_lt (gstaStep_count_le dt gstal s time acc)
        (gstaSpikes_count_lt dt gstal s rest _ ⟨u, hur, hq⟩)

theorem gstaSpikes_noop (dt : ℚ) (gstal : ℤ) (s : ASig) :
    ∀ (spikes : List ℚ) (acc : List ℚ × ℕ),
      (∀ t ∈ spikes, ¬ gstaQualifies dt gstal s t) →
      gstaSpikes dt gstal s spikes acc = acc
  | [], _, _ => rfl
  | time :: rest, acc, h => by
    show gstaSpikes dt gstal s rest (gstaStep dt gstal s time acc) = acc
    rw [gstaStep_not dt gstal s time acc (h time (List.mem_cons_self time rest))]
    exact gstaSpikes_noop dt gstal s rest acc
      (fun u hu => h u (List.mem_cons_of_mem time hu))

theorem gstaPairs_inv (dt : ℚ) (gstal : ℤ) (c : ℚ) (hg : 0 ≤ gstal) :
    ∀ (pairs : List (ASig × List ℚ)) (acc : List ℚ × ℕ),
      (∀ p ∈ pairs, ∀ x ∈ p.1.samples, x = c) →
      acc.1 = List.replicate (2 * gstal + 1).toNat ((acc.2 : ℚ) * c) →
      (gstaPairs dt gstal pairs acc).1 =
        List.replicate (2 * gstal + 1).toNat
          (((gstaPairs dt gstal pairs acc).2 : ℚ) * c)
  | [], _, _, hacc => hacc
  | p :: rest, acc, hall, hacc =>
    gstaPairs_inv dt gstal c hg rest _
      (fun q hq => hall q (List.mem_cons_of_mem p hq))
      (gstaSpikes_inv dt gstal p.1 c
        (hall p (List.mem_cons_self p rest)) hg p.2 acc hacc)

theorem gstaPairs_count_le (dt : ℚ) (gstal : ℤ) :
    ∀ (pairs : List (ASig × List ℚ)) (acc : List ℚ × ℕ),
      acc.2 ≤ (gstaPairs dt gstal pairs acc).2
  | [], _ => le_refl _
  | p :: rest, acc =>
    le_trans (gstaSpikes_count_le dt gstal p.1 p.2 acc)
      (gstaPairs_count_le dt gstal rest _)

theorem gstaPairs_count_lt (dt : ℚ) (gstal : ℤ) :
    ∀ (pairs : List (ASig × List ℚ)) (acc : List ℚ × ℕ),
      (∃ p ∈ pairs, ∃ t ∈ p.2, gstaQualifies dt gstal p.1 t) →
      acc.2 < (gstaPairs dt gstal pairs acc).2
  | [], _, h => by simp at h
  | p :: rest, acc, h => by
    obtain ⟨q, hq, t, ht, hqual⟩ := h
    rcases List.mem_cons.mp hq with rfl | hqr
    · calc acc.2 < (gstaSpikes dt gstal q.1 q.2 acc).2 :=
          gstaSpikes_count_lt dt gstal q.1 q.2 acc ⟨t, ht, hqual⟩
        _ ≤ (gstaPairs dt gstal rest (gstaSpikes dt gstal q.1 q.2 acc)).2 :=
          gstaPairs_count_le dt gstal rest _
    · exact lt_of_le_of_lt (gstaSpikes_count_le dt gstal p.1 p.2 acc)
        (gstaPairs_count_lt dt gstal rest _ ⟨q, hqr, t, ht, hqual⟩)

theorem gstaPairs_noop (dt : ℚ) (gstal : ℤ) :
    ∀ (pairs : List (ASig × List ℚ)) (acc : List ℚ × ℕ),
      (∀ p ∈ pairs, ∀ t ∈ p.2, ¬ gstaQualifies dt gstal p.1 t) →
      gstaPairs dt gstal pairs acc = acc
  | [], _, _ => rfl
  | p :: rest, acc, h => by
    show gstaPairs dt gstal rest (gstaSpikes dt gstal p.1 p.2 acc) = acc
    rw [gstaSpikes_noop dt gstal p.1 p.2 acc (h p (List.mem_cons_self p rest))]
    exact gstaPairs_noop dt gstal rest acc
      (fun q hq => h q (List.mem_cons_of_mem p hq))

/-! ### Claim C3 -/

/-- C3 counterexample: a constant-5 signal (4 samples, `t_start = 0`,
`t_stop = 4`, `dt = 1`) with a single spike at time 1, strictly inside the
window, under STA half-width `gstal = 1`.  The spike's centered window does
not fit (`idx - gstal = 0`, not `> 0`), so the spike is skipped, the count
stays 0, and the returned STA is all zeros — not the constant 5 that the
claim demands for any spike set strictly inside the window. -/
theorem C3_counterexample :
    constSignal (ASig.mk [5, 5, 5, 5] 0 1) 5 ∧
    ((ASig.mk [5, 5, 5, 5] 0 1).tStart < 1 ∧
      (1 : ℚ) < (ASig.mk [5, 5, 5, 5] 0 1).tStop) ∧
    do_gsta 1 [ASig.mk [5, 5, 5, 5] 0 1] [[1]] =
      some (ASig.mk [0, 0, 0] (-1) 1) ∧
    ¬ ([0, 0, 0] : List ℚ) = List.replicate 3 (5 : ℚ) := by
  have hn : ∀ p ∈ ([ASig.mk [5, 5, 5, 5] 0 1].zip [[(1:ℚ)]]), ∀ t ∈ p.2,
      ¬ gstaQualifies (ASig.mk [5, 5, 5, 5] 0 1).samplingPeriod
        (pyInt (1 / (ASig.mk [5, 5, 5, 5] 0 1).samplingPeriod)) p.1 t := by
    intro p hp t ht
    simp only [List.zip_cons_cons, List.zip_nil_right, List.mem_singleton] at hp
    subst hp
    simp only [List.mem_singleton] at ht
    subst ht
    norm_num [gstaQualifies, ASig.tStop, pyInt]
  refine ⟨by decide, by norm_num [ASig.tStop], ?_, by decide⟩
  simp only [do_gsta]
  rw [gstaPairs_noop _ _ _ _ hn]
  norm_num [pyInt]
  rfl

/-- C3 amended: if every sample of every input signal equals the constant
`c`, then for any spike trains, provided at least one spike both lies
strictly inside its signal's window and has its centered window of
half-width `gstal` fitting inside the signal (the source's qualification
test of lines 235-237), every sample of the returned STA equals `c`.
(Without such a qualifying spike the count stays zero and the result is all
zeros instead — see the C3 counterexample and claim C9.) -/
theorem C3_amended_constant_sta (length_p : ℚ) (analog_signal : List ASig)
    (sp : List (List ℚ)) (c : ℚ) (s0 : ASig) (r : ASig)
    (h0 : analog_signal.head? = some s0)
    (hconst : ∀ s ∈ analog_signal, constSignal s c)
    (hg : 0 ≤ pyInt (length_p / s0.samplingPeriod))
    (hq : ∃ p ∈ analog_signal.zip sp, ∃ t ∈ p.2,
      gstaQualifies s0.samplingPeriod (pyInt (length_p / s0.samplingPeriod)) p.1 t)
    (hr : do_gsta length_p analog_signal sp = some r) :
    r.samples =
      List.replicate (2 * pyInt (length_p / s0.samplingPeriod) + 1).toNat c := by
  cases analog_signal with
  | nil => cases h0
  | cons s1 rest =>
    simp only [List.head?_cons, Option.some.injEq] at h0
    subst h0
    simp only [do_gsta, Option.some.injEq] at hr
    have hsamp : r.samples =
        (gstaPairs s1.samplingPeriod (pyInt (length_p / s1.samplingPeriod))
          ((s1 :: rest).zip sp)
          (List.replicate (2 * pyInt (length_p / s1.samplingPeriod) + 1).toNat 0, 0)).1.map
          (fun x => x / ((if (gstaPairs s1.samplingPeriod (pyInt (length_p / s1.samplingPeriod))
            ((s1 :: rest).zip sp)
            (List.replicate (2 * pyInt (length_p / s1.samplingPeriod) + 1).toNat 0, 0)).2 = 0
            then 1
            else (gstaPairs s1.samplingPeriod (pyInt (length_p / s1.samplingPeriod))
              ((s1 :: rest).zip sp)
              (List.replicate (2 * pyInt (length_p / s1.samplingPeriod) + 1).toNat 0, 0)).2 : ℕ) : ℚ)) := by
      rw [← hr]
    have hinv := gstaPairs_inv s1.samplingPeriod (pyInt (length_p / s1.samplingPeriod)) c hg
      ((s1 :: rest).zip sp)
      (List.replicate (2 * pyInt (length_p / s1.samplingPeriod) + 1).toNat 0, 0)
      (fun p hp x hx => by
        obtain ⟨a, b⟩ := p
        exact hconst a (List.of_mem_zip hp).1 x hx)
      (by simp)
    have hpos : 0 < (gstaPairs s1.samplingPeriod (pyInt (length_p / s1.samplingPeriod))
        ((s1 :: rest).zip sp)
        (List.replicate (2 * pyInt (length_p / s1.samplingPeriod) + 1).toNat 0, 0)).2 := by
      have := gstaPairs_count_lt s1.samplingPeriod (pyInt (length_p / s1.samplingPeriod))
        ((s1 :: rest).zip sp)
        (List.replicate (2 * pyInt (length_p / s1.samplingPeriod) + 1).toNat 0, 0) hq
      simpa using this
    have hne : (gstaPairs s1.samplingPeriod (pyInt (length_p / s1.samplingPeriod))
        ((s1 :: rest).zip sp)
        (List.replicate (2 * pyInt (length_p / s1.samplingPeriod) + 1).toNat 0, 0)).2 ≠ 0 :=
      Nat.pos_iff_ne_zero.mp hpos
    rw [hsamp, if_neg hne, hinv, List.map_replicate]
    congr 1
    exact mul_div_cancel_left₀ c (Nat.cast_ne_zero.mpr hne)

/-- Witness for the amended C3: a constant-5 signal of 5 samples with one
qualifying spike at time 2 (its centered window of half-width 1 fits); the
STA is the constant-5 vector of width 3. -/
theorem C3_amended_constant_sta_witness :
    do_gsta 1 [ASig.mk [5, 5, 5, 5, 5] 0 1] [[2]] =
      some (ASig.mk [5, 5, 5] (-1) 1) ∧
    (ASig.mk [5, 5, 5] (-1) 1).samples =
      List.replicate (2 * pyInt ((1 : ℚ) / (1 : ℚ)) + 1).toNat 5 := by
  have hq : ∃ p ∈ [ASig.mk [5, 5, 5, 5, 5] 0 1].zip [[(2:ℚ)]], ∃ t ∈ p.2,
      gstaQualifies (ASig.mk [5, 5, 5, 5, 5] 0 1).samplingPeriod
        (pyInt (1 / (ASig.mk [5, 5, 5, 5, 5] 0 1).samplingPeriod)) p.1 t := by
    refine ⟨(ASig.mk [5, 5, 5, 5, 5] 0 1, [2]), by simp, 2, by simp, ?_⟩
    norm_num [gstaQualifies, ASig.tStop, pyInt]
  have hr : do_gsta 1 [ASig.mk [5, 5, 5, 5, 5] 0 1] [[2]] =
      some (ASig.mk [5, 5, 5] (-1) 1) := by
    simp only [do_gsta, List.zip_cons_cons, List.zip_nil_right]
    rw [gstaPairs, gstaPairs, gstaSpikes, gstaSpikes]
    rw [gstaStep_qualifies _ _ _ _ _ (by norm_num [gstaQualifies, ASig.tStop, pyInt])]
    norm_num [pyInt, windowSlice, gstaPairs]
    norm_num [Int.toNat_ofNat, List.replicate, List.take, List.zipWith]
  exact ⟨hr, C3_amended_constant_sta 1 [ASig.mk [5, 5, 5, 5, 5] 0 1] [[2]] 5
    (ASig.mk [5, 5, 5, 5, 5] 0 1) (ASig.mk [5, 5, 5] (-1) 1)
    rfl (by decide) (by norm_num [pyInt]) hq hr⟩

/-! ### Claim C9 -/

/-- C9: when no spike qualifies — so the accumulated count is zero — the
division of lines 240-242 uses one in place of zero, and `do_gsta` returns
the all-zero STA of the fixed window width `2*gstal+1` rather than failing
with a division error. -/
theorem C9_zero_count_all_zero (length_p : ℚ) (analog_signal : List ASig)
    (sp : List (List ℚ)) (s0 : ASig)
    (h0 : analog_signal.head? = some s0)
    (hnone : ∀ p ∈ analog_signal.zip sp, ∀ t ∈ p.2,
      ¬ gstaQualifies s0.samplingPeriod (pyInt (length_p / s0.samplingPeriod)) p.1 t) :
    do_gsta length_p analog_signal sp =
      some (ASig.mk
        (List.replicate (2 * pyInt (length_p / s0.samplingPeriod) + 1).toNat 0)
        (-(pyInt (length_p / s0.samplingPeriod) : ℚ) * s0.samplingPeriod)
        s0.samplingPeriod) := by
  cases analog_signal with
  | nil => cases h0
  | cons s1 rest =>
    simp only [List.head?_cons, Option.some.injEq] at h0
    subst h0
    simp only [do_gsta]
    rw [gstaPairs_noop s1.samplingPeriod (pyInt (length_p / s1.samplingPeriod))
      ((s1 :: rest).zip sp) _ hnone]
    simp [zero_div]

/-- Witness for C9: a 3-sample signal with a single spike far outside the
window; the result is the all-zero STA of width 3. -/
theorem C9_zero_count_all_zero_witness :
    do_gsta 1 [ASig.mk [1, 2, 3] 0 1] [[10]] =
      some (ASig.mk
        (List.replicate (2 * pyInt ((1 : ℚ) / (1 : ℚ)) + 1).toNat 0)
        (-(pyInt ((1 : ℚ) / (1 : ℚ)) : ℚ) * 1) 1) :=
  C9_zero_count_all_zero 1 [ASig.mk [1, 2, 3] 0 1] [[10]] (ASig.mk [1, 2, 3] 0 1) rfl
    (by
      intro p hp t ht
      simp only [List.zip_cons_cons, List.zip_nil_right, List.mem_singleton] at hp
      subst hp
      simp only [List.mem_singleton] at ht
      subst ht
      norm_num [gstaQualifies, ASig.tStop])

/-! ### Claims C4 and C10: ModulationRatio control flow -/

theorem modulationRatioRun_stop (s : MRSheetData)
    (hs : s.assertsOk = true) (hcount : s.orPrefCount ≠ 1) :
    ∀ (pre : List MRSheetData), ∀ (post : List MRSheetData),
      (∀ t ∈ pre, t.assertsOk = true ∧ t.orPrefCount = 1) →
      modulationRatioRun (pre ++ s :: post) =
        (pre.flatMap mrRecordsFor, [mrErrMsg s.orPrefCount], .abortedReturn)
  | [], post, _ => by
    simp [modulationRatioRun, hs, hcount]
  | t :: pre, post, hall => by
    have ht := hall t (List.mem_cons_self t pre)
    have ih := modulationRatioRun_stop s hs hcount pre post
      (fun u hu => hall u (List.mem_cons_of_mem t hu))
    simp only [List.cons_append, modulationRatioRun, ht.1, not_true,
      Bool.true_eq_false, if_false, ht.2, ne_eq, not_false_iff, if_neg, ih,
      List.flatMap_cons]
    simp [ht.2, ih]

/-- C4: for a sheet whose store holds a number of 'orientation preference'
`PerNeuronValue` records different from one (zero or several), given that
the sheets processed before it were unexceptional, `perform_analysis`
reports the condition through the error log and terminates by the normal
`return None` of line 352 — no `AssertionError` escapes to the caller — and
the records added contain no 'Modulation ratio' record for that sheet. -/
theorem C4_orientation_preference_precondition (pre post : List MRSheetData)
    (s : MRSheetData)
    (hpre : ∀ t ∈ pre, t.assertsOk = true ∧ t.orPrefCount = 1)
    (hname : ∀ t ∈ pre, t.name ≠ s.name)
    (hs : s.assertsOk = true) (hcount : s.orPrefCount ≠ 1) :
    (modulationRatioRun (pre ++ s :: post)).2.2 = MROutcome.abortedReturn ∧
    (modulationRatioRun (pre ++ s :: post)).2.1 = [mrErrMsg s.orPrefCount] ∧
    ∀ rec ∈ (modulationRatioRun (pre ++ s :: post)).1, rec.sheetName ≠ s.name := by
  rw [modulationRatioRun_stop s hs hcount pre post hpre]
  refine ⟨rfl, rfl, ?_⟩
  intro rec hrec
  simp only [List.mem_flatMap] at hrec
  obtain ⟨t, ht, hmem⟩ := hrec
  unfold mrRecordsFor at hmem
  simp only [List.mem_map] at hmem
  obtain ⟨g, _, rfl⟩ := hmem
  exact hname t ht

/-- Witness for C4: one sheet "V1" with zero orientation-preference records
followed by a healthy sheet; the run ends with the logged early return and
adds no record for "V1". -/
theorem C4_orientation_preference_precondition_witness :
    (modulationRatioRun ([] ++ MRSheetData.mk "V1" true 0 ["st1"] ::
      [MRSheetData.mk "V2" true 1 ["st2"]])).2.2 = MROutcome.abortedReturn ∧
    (modulationRatioRun ([] ++ MRSheetData.mk "V1" true 0 ["st1"] ::
      [MRSheetData.mk "V2" true 1 ["st2"]])).2.1 = [mrErrMsg 0] ∧
    ∀ rec ∈ (modulationRatioRun ([] ++ MRSheetData.mk "V1" true 0 ["st1"] ::
      [MRSheetData.mk "V2" true 1 ["st2"]])).1, rec.sheetName ≠ "V1" :=
  C4_orientation_preference_precondition [] [MRSheetData.mk "V2" true 1 ["st2"]]
    (MRSheetData.mk "V1" true 0 ["st1"])
    (by decide) (by decide) (by decide) (by decide)

/-- C10: a failed orientation-preference lookup on one sheet terminates the
entire routine: the records produced are exactly those of the sheets before
the failing one, so no sheet after it contributes anything — even when every
later sheet satisfies all preconditions — and the whole run coincides with
the run in which the later sheets do not exist at all. -/
theorem C10_failure_stops_later_sheets (pre post : List MRSheetData)
    (s : MRSheetData)
    (hpre : ∀ t ∈ pre, t.assertsOk = true ∧ t.orPrefCount = 1)
    (hs : s.assertsOk = true) (hcount : s.orPrefCount ≠ 1)
    (_hpost : ∀ t ∈ post, t.assertsOk = true ∧ t.orPrefCount = 1) :
    modulationRatioRun (pre ++ s :: post) =
      (pre.flatMap mrRecordsFor, [mrErrMsg s.orPrefCount], .abortedReturn) ∧
    modulationRatioRun (pre ++ s :: post) = modulationRatioRun (pre ++ [s]) := by
  have h1 := modulationRatioRun_stop s hs hcount pre post hpre
  have h2 := modulationRatioRun_stop s hs hcount pre [] hpre
  exact ⟨h1, h1.trans h2.symm⟩

/-- Witness for C10: a healthy sheet "V0", then a failing sheet "V1" with
two orientation-preference records, then a healthy sheet "V2"; the output
carries only "V0" records and equals the run without "V2". -/
theorem C10_failure_stops_later_sheets_witness :
    modulationRatioRun ([MRSheetData.mk "V0" true 1 ["g0"]] ++
        MRSheetData.mk "V1" true 2 [] :: [MRSheetData.mk "V2" true 1 ["g2"]]) =
      ([MRSheetData.mk "V0" true 1 ["g0"]].flatMap mrRecordsFor,
        [mrErrMsg 2], .abortedReturn) ∧
    modulationRatioRun ([MRSheetData.mk "V0" true 1 ["g0"]] ++
        MRSheetData.mk "V1" true 2 [] :: [MRSheetData.mk "V2" true 1 ["g2"]]) =
      modulationRatioRun ([MRSheetData.mk "V0" true 1 ["g0"]] ++
        [MRSheetData.mk "V1" true 2 []]) :=
  C10_failure_stops_later_sheets [MRSheetData.mk "V0" true 1 ["g0"]]
    [MRSheetData.mk "V2" true 1 ["g2"]] (MRSheetData.mk "V1" true 2 [])
    (by decide) (by decide) (by decide) (by decide)

/-! ### Claim C5 -/

theorem sum_range_getD (x : List ℚ) :
    ∑ n ∈ Finset.range x.length, x.getD n 0 = x.sum := by
  induction x with
  | nil => simp
  | cons a l ih =>
    rw [List.length_cons, Finset.sum_range_succ', List.sum_cons]
    simp only [List.getD_cons_succ, List.getD_cons_zero]
    rw [ih]
    ring

theorem dftCoeff_zero (x : List ℚ) : dftCoeff x 0 = ((x.sum : ℚ) : ℂ) := by
  unfold dftCoeff
  have h : ∀ n ∈ Finset.range x.length,
      ((x.getD n 0 : ℚ) : ℂ) *
          Complex.exp (-2 * Real.pi * Complex.I * ((0 : ℤ) : ℂ) * (n : ℂ) / (x.length : ℂ)) =
        ((x.getD n 0 : ℚ) : ℂ) := by
    intro n _
    norm_num
  rw [Finset.sum_congr rfl h, ← sum_range_getD x]
  exact (Rat.cast_sum _ _).symm

/-- C5: `calculate_MR` computes the DFT of the signal and returns
`2*|F1|/|F0|`, where `F0`, the DC coefficient, equals the plain sum of the
samples (first conjunct), and `F1` is the coefficient at the harmonic index
`round(duration * frequency)` — the number of stimulus cycles in the signal
duration, rounded; whenever the DC coefficient is exactly zero it returns 0
instead of raising a division error (second conjunct, zero branch). -/
theorem C5_modulation_ratio_formula (samples : List ℚ)
    (tStart tStop frequency : ℚ) :
    dftCoeff samples 0 = ((samples.sum : ℚ) : ℂ) ∧
    calculate_MR samples tStart tStop frequency =
      (if samples.sum = 0 then 0
       else 2 * Complex.abs (dftCoeff samples (pyRound ((tStop - tStart) * frequency))) /
         Complex.abs ((samples.sum : ℚ) : ℂ)) := by
  refine ⟨dftCoeff_zero samples, ?_⟩
  by_cases hz : samples.sum = 0
  · rw [if_pos hz]
    simp only [calculate_MR]
    rw [dftCoeff_zero, hz]
    simp
  · rw [if_neg hz]
    simp only [calculate_MR]
    have habs : Complex.abs (dftCoeff samples 0) ≠ 0 := by
      rw [dftCoeff_zero]
      simp only [ne_eq, map_eq_zero, Rat.cast_eq_zero]
      exact hz
    rw [if_pos habs, dftCoeff_zero]
    have hidx : (tStop - tStart) / (1 / frequency) = (tStop - tStart) * frequency := by
      rw [div_div_eq_mul_div, div_one]
    rw [hidx]

/-! ### Claim C6 -/

/-- C6: on the spec's 3-trials-by-4-orientations scenario (trial-major
input order, arbitrary per-trial mean-rate arrays), the per-sheet body of
`TrialAveragedFiringRate.perform_analysis` groups the twelve arrays by every
stimulus parameter except `trial`, takes the arithmetic mean
(elementwise sum divided by the group size 3) of each group, and emits
exactly four 'Firing rate' records, one per group, labeled with
representative descriptors that differ only in the orientation value. -/
theorem C6_trial_averaged_firing_rate
    (r00 r01 r02 r03 r10 r11 r12 r13 r20 r21 r22 r23 : List ℚ) :
    trialAveragedFiringRate "V1"
      [r00, r01, r02, r03, r10, r11, r12, r13, r20, r21, r22, r23]
      [StimDesc.mk "Grating" [("orientation", 0), ("trial", 0)],
       StimDesc.mk "Grating" [("orientation", 1), ("trial", 0)],
       StimDesc.mk "Grating" [("orientation", 2), ("trial", 0)],
       StimDesc.mk "Grating" [("orientation", 3), ("trial", 0)],
       StimDesc.mk "Grating" [("orientation", 0), ("trial", 1)],
       StimDesc.mk "Grating" [("orientation", 1), ("trial", 1)],
       StimDesc.mk "Grating" [("orientation", 2), ("trial", 1)],
       StimDesc.mk "Grating" [("orientation", 3), ("trial", 1)],
       StimDesc.mk "Grating" [("orientation", 0), ("trial", 2)],
       StimDesc.mk "Grating" [("orientation", 1), ("trial", 2)],
       StimDesc.mk "Grating" [("orientation", 2), ("trial", 2)],
       StimDesc.mk "Grating" [("orientation", 3), ("trial", 2)]] =
      [FRRecord.mk
        ((List.zipWith (· + ·) (List.zipWith (· + ·) r00 r10) r20).map
          (fun x => x / ((3 : ℕ) : ℚ)))
        "Firing rate" "V1" (StimDesc.mk "Grating" [("orientation", 0)]),
       FRRecord.mk
        ((List.zipWith (· + ·) (List.zipWith (· + ·) r01 r11) r21).map
          (fun x => x / ((3 : ℕ) : ℚ)))
        "Firing rate" "V1" (StimDesc.mk "Grating" [("orientation", 1)]),
       FRRecord.mk
        ((List.zipWith (· + ·) (List.zipWith (· + ·) r02 r12) r22).map
          (fun x => x / ((3 : ℕ) : ℚ)))
        "Firing rate" "V1" (StimDesc.mk "Grating" [("orientation", 2)]),
       FRRecord.mk
        ((List.zipWith (· + ·) (List.zipWith (· + ·) r03 r13) r23).map
          (fun x => x / ((3 : ℕ) : ℚ)))
        "Firing rate" "V1" (StimDesc.mk "Grating" [("orientation", 3)])] := by
  simp +decide [trialAveragedFiringRate, colapse, colapseInsert,
    StimDesc.restrict, vecSum]

end Mozaik
